import Mathlib

/-
A shallow embedding of the two scripts of the magisk-modules-alt-repo
repository: scripts/build.py (GraphQL client, module.prop descriptor
parsing, module record assembly, catalog accumulation) and
scripts/git-commit.py (oversized-artifact pruning and the commit-message
step).

Conventions of the embedding:
* Python strings are `List Char` (abbreviated `Str`).
* JSON values decoded by Python's json module are the inductive `JValue`;
  `JValue.null` doubles as Python's `None`.
* Python exceptions are the explicit `PyErr`, threaded through `Except`:
  a function that can raise to its caller returns `Except PyErr _`.
* Network effects are inputs: each HTTP round trip performed by the code
  is represented by an `HttpOutcome` value stored in the modelled
  repository, and the PyGithub lookups (file contents, license) are
  `Option`-valued fields of `Repo` where `none` stands for the library's
  UnknownObjectException ("not found").
-/

namespace MagiskRepo

abbrev Str := List Char

/-- Python exceptions the embedded code can raise or catch. -/
inductive PyErr where
  | keyError
  | typeError
  | valueError
  | attributeError
  | connectionError
  deriving DecidableEq, Repr

/-- JSON values as decoded by Python's json module. `null` doubles as
Python's `None`. JSON numbers are modelled as integers (the only number
the scripts touch is an integer millisecond timestamp). -/
inductive JValue where
  | null
  | bool (b : Bool)
  | num (n : Int)
  | str (s : Str)
  | arr (elems : List JValue)
  | obj (fields : List (Str × JValue))

/-- Lookup in a decoded JSON object, i.e. a Python dict built by json:
on duplicate keys the later entry wins, as in `json.loads`. -/
def jlookup (fields : List (Str × JValue)) (k : Str) : Option JValue :=
  fields.foldl (fun acc p => if p.1 = k then some p.2 else acc) none

/-- Outcome of one `requests.post` round trip: either the transport
itself raised (connection error, timeout, ...), or a response with a
status (`ok`) and a decoded JSON body came back. -/
inductive HttpOutcome where
  | raised
  | resp (ok : Bool) (body : JValue)

/-- GitHubGraphQL.graphql_query: posts the query; on an OK response
returns the decoded body, on a non-OK response returns None. A raising
transport is NOT caught anywhere in the source, so it propagates. -/
def graphql_query : HttpOutcome → Except PyErr (Option JValue)
  | .raised => .error .connectionError
  | .resp ok body => if ok then .ok (some body) else .ok none

/-- GitHubGraphQL.query_repository: runs graphql_query, then inside a
try/except AttributeError does `result.get("data").get("repository")`.
An AttributeError (calling .get on None or on a non-dict) yields None;
a missing "repository" key yields None via dict.get; a JSON null
repository is Python None as well. -/
def query_repository (h : HttpOutcome) : Except PyErr (Option JValue) :=
  match graphql_query h with
  | .error e => .error e
  | .ok result =>
    .ok (match result with
      | some (.obj fields) =>
        match jlookup fields ("data".toList) with
        | some (.obj dfields) =>
          match jlookup dfields ("repository".toList) with
          | some .null => none
          | some v => some v
          | none => none
        | _ => none
      | _ => none)

/-- Python's `url.split("/")`: always a non-empty list of segments. -/
def splitOnSlash : Str → List Str
  | [] => [[]]
  | c :: rest =>
    match splitOnSlash rest with
    | [] => [[c]]
    | s :: ss => if c = '/' then [] :: s :: ss else (c :: s) :: ss

/-- `url.split("/")[-1]`: the last slash-separated segment. -/
def lastSegment (u : Str) : Str := (splitOnSlash u).getLastD []

/-- Python `x == "GITHUB"`: true exactly for the string "GITHUB",
false (no error) for values of any other type. -/
def isGithubPlatform (p : JValue) : Bool :=
  match p with
  | .str q => q = "GITHUB".toList
  | _ => false

/-- Python `x == ""`: true exactly for the empty string. -/
def isEmptyStr (v : JValue) : Bool :=
  match v with
  | .str t => t.isEmpty
  | _ => false

/-- One iteration of the loop in GitHubGraphQL.get_sponsor_url:
`item["platform"]` (KeyError when absent, TypeError when item is not a
dict), comparison with "GITHUB" (Python equality, false for non-strings),
then either the sponsors rewrite of `item["url"].split("/")[-1]`
(AttributeError when the url is not a string) or the raw `item["url"]`
appended unchanged. -/
def funding_item (item : JValue) : Except PyErr JValue :=
  match item with
  | .obj g =>
    match jlookup g ("platform".toList) with
    | none => .error .keyError
    | some p =>
      if isGithubPlatform p then
        match jlookup g ("url".toList) with
        | none => .error .keyError
        | some (.str u) =>
          .ok (.str ("https://github.com/sponsors/".toList ++ lastSegment u))
        | some _ => .error .attributeError
      else
        match jlookup g ("url".toList) with
        | none => .error .keyError
        | some v => .ok v
  | _ => .error .typeError

/-- The accumulation loop of get_sponsor_url: left to right, the first
raising item aborts the whole call. -/
def mapFunding : List JValue → Except PyErr (List JValue)
  | [] => .ok []
  | item :: rest =>
    match funding_item item with
    | .error e => .error e
    | .ok v =>
      match mapFunding rest with
      | .error e => .error e
      | .ok vs => .ok (v :: vs)

/-- GitHubGraphQL.get_sponsor_url: absent repository result gives an
empty list; a present repository is subscripted with "fundingLinks"
(KeyError when the key is absent, TypeError when the repository value is
not a dict), then iterated. Iterating a non-list raises TypeError, except
that an empty string or empty dict iterates zero times and yields []. -/
def get_sponsor_url (h : HttpOutcome) : Except PyErr (List JValue) :=
  match query_repository h with
  | .error e => .error e
  | .ok none => .ok []
  | .ok (some repository) =>
    match repository with
    | .obj fields =>
      match jlookup fields ("fundingLinks".toList) with
      | none => .error .keyError
      | some (.arr items) => mapFunding items
      | some (.str s) => if s.isEmpty then .ok [] else .error .typeError
      | some (.obj g) => if g.isEmpty then .ok [] else .error .typeError
      | some _ => .error .typeError
    | _ => .error .typeError

/-- GitHubGraphQL.get_homepage_url: absent repository gives None;
otherwise `repository["homepageUrl"]` (KeyError / TypeError as above),
returned unless it equals the empty string, in which case None. A JSON
null homepage is Python None, which also flows back. `JValue.null` plays
Python's None in the result. -/
def get_homepage_url (h : HttpOutcome) : Except PyErr JValue :=
  match query_repository h with
  | .error e => .error e
  | .ok none => .ok .null
  | .ok (some repository) =>
    match repository with
    | .obj fields =>
      match jlookup fields ("homepageUrl".toList) with
      | none => .error .keyError
      | some v => if isEmptyStr v then .ok .null else .ok v
    | _ => .error .typeError

/-- A parsed timestamp, as produced by dateutil on GitHub's pushedAt. -/
structure PDateTime where
  year : Nat
  month : Nat
  day : Nat
  hour : Nat
  minute : Nat
  second : Nat
  deriving DecidableEq, Repr

/-- Decimal digit value of a character, if it is a digit. -/
def digitVal (c : Char) : Option Nat :=
  if '0' ≤ c ∧ c ≤ '9' then some (c.toNat - '0'.toNat) else none

/-- Model of dateutil.parser.parse restricted to the fixed ISO-8601
shape GitHub emits for pushedAt (`YYYY-MM-DDTHH:MM:SSZ`); any other
string is unparseable. On an unparseable string the real library raises
ParserError, a subclass of ValueError — never TypeError. -/
def parseISO (s : Str) : Option PDateTime :=
  match s with
  | [y1, y2, y3, y4, '-', m1, m2, '-', d1, d2, 'T',
     h1, h2, ':', n1, n2, ':', s1, s2, 'Z'] =>
    match digitVal y1, digitVal y2, digitVal y3, digitVal y4,
          digitVal m1, digitVal m2, digitVal d1, digitVal d2,
          digitVal h1, digitVal h2, digitVal n1, digitVal n2,
          digitVal s1, digitVal s2 with
    | some a, some b, some c, some d, some e, some f, some g, some hh,
      some i, some j, some k, some l, some m, some n =>
      let yr := ((a * 10 + b) * 10 + c) * 10 + d
      let mo := e * 10 + f
      let dy := g * 10 + hh
      let ho := i * 10 + j
      let mi := k * 10 + l
      let se := m * 10 + n
      if 1 ≤ mo ∧ mo ≤ 12 ∧ 1 ≤ dy ∧ dy ≤ 31 ∧ ho ≤ 23 ∧ mi ≤ 59 ∧ se ≤ 59
      then some ⟨yr, mo, dy, ho, mi, se⟩ else none
    | _, _, _, _, _, _, _, _, _, _, _, _, _, _ => none
  | _ => none

/-- GitHubGraphQL.get_pushed_at: absent repository gives None. The
subscript and the parse call sit inside `try ... except TypeError`, so a
non-dict repository (TypeError on subscripting) and a null or non-string
pushedAt value (TypeError inside dateutil) all give None — but a dict
repository MISSING the key raises KeyError, and an unparseable string
raises ValueError, neither of which the except clause catches. -/
def get_pushed_at (h : HttpOutcome) : Except PyErr (Option PDateTime) :=
  match query_repository h with
  | .error e => .error e
  | .ok none => .ok none
  | .ok (some repository) =>
    match repository with
    | .obj fields =>
      match jlookup fields ("pushedAt".toList) with
      | none => .error .keyError
      | some (.str s) =>
        match parseISO s with
        | some t => .ok (some t)
        | none => .error .valueError
      | some _ => .ok none
    | _ => .ok none

/-- A character Python's str.splitlines treats as a line boundary. -/
def isLineBreak (c : Char) : Bool :=
  c = '\n' || c = '\r' || c = '\x0b' || c = '\x0c' ||
  c = '\x1c' || c = '\x1d' || c = '\x1e' || c = '\x85' ||
  c = '\u2028' || c = '\u2029'

/-- Python str.splitlines: splits at every line boundary, treating a
CRLF pair as one boundary, and produces no trailing empty line. `acc`
holds the current line reversed. -/
def splitlinesGo (acc : Str) : Str → List Str
  | [] => if acc.isEmpty then [] else [acc.reverse]
  | '\r' :: '\n' :: rest => acc.reverse :: splitlinesGo [] rest
  | c :: rest =>
    if isLineBreak c then acc.reverse :: splitlinesGo [] rest
    else splitlinesGo (c :: acc) rest

def splitlines (s : Str) : List Str := splitlinesGo [] s

/-- Python `line.split("=", 1)` under the promise that `line` contains
an '=': everything before the first '=' and everything after it. -/
def splitAtEq : Str → Str × Str
  | [] => ([], [])
  | c :: rest =>
    if c = '=' then ([], rest)
    else
      match splitAtEq rest with
      | (k, v) => (c :: k, v)

/-- One line of the descriptor loop in GithubApi.get_module_prop: lines
without '=' are skipped, the rest split at the first '=' with no
trimming on either side. -/
def parse_prop_line (line : Str) : Option (Str × Str) :=
  if '=' ∈ line then some (splitAtEq line) else none

/-- Python dict assignment `d[k] = v`: update the entry in place when
the key is present, append it otherwise. -/
def dinsert (m : List (Str × Str)) (k v : Str) : List (Str × Str) :=
  if m.any (fun p => p.1 = k) then
    m.map (fun p => if p.1 = k then (k, v) else p)
  else m ++ [(k, v)]

/-- Python dict lookup `d.get(k)` / `d[k]` (the latter raising KeyError
on `none`, handled at each use site). Keys are unique by construction,
so the first match is the entry. -/
def dget (m : List (Str × Str)) (k : Str) : Option Str :=
  (m.find? (fun p => p.1 = k)).map (fun p => p.2)

/-- The dict built by the parsing loop of GithubApi.get_module_prop. -/
def props_of_lines (ls : List Str) : List (Str × Str) :=
  ls.foldl
    (fun m line =>
      match parse_prop_line line with
      | none => m
      | some kv => dinsert m kv.1 kv.2)
    []

/-- The modelled slice of one PyGithub Repository plus the per-repo
outcomes of the network calls issued while resolving it. An `Option`
field models PyGithub raising UnknownObjectException (`none`) versus
returning a value. `module_prop` is the decoded text of the module.prop
file, `changelog_md` the download_url of changelog.md, `license_spdx`
the detected license's spdx_id. -/
structure Repo where
  ssh_url : Str
  clone_url : Str
  html_url : Str
  has_issues : Bool
  module_prop : Option Str
  changelog_md : Option Str
  license_spdx : Option Str
  funding_http : HttpOutcome
  homepage_http : HttpOutcome
  pushed_http : HttpOutcome

/-- GithubApi.get_license: the spdx_id of the repository license,
normalised to "" when the lookup raises UnknownObjectException or the
identifier is the NOASSERTION sentinel. -/
def get_license (repo : Repo) : Str :=
  match repo.license_spdx with
  | none => []
  | some s => if s = "NOASSERTION".toList then [] else s

/-- GithubApi.get_changelog: the download_url of changelog.md, or ""
when the file lookup raises UnknownObjectException. -/
def get_changelog (repo : Repo) : Str :=
  match repo.changelog_md with
  | none => []
  | some u => u

/-- GithubApi.get_module_prop: None when module.prop does not exist,
otherwise the dict parsed from its decoded lines. -/
def get_module_prop (repo : Repo) : Option (List (Str × Str)) :=
  match repo.module_prop with
  | none => none
  | some text => some (props_of_lines (splitlines text))

/-- The metadata sub-dict of a module record. homepage and donate hold
whatever Python value flowed in (a JSON string in the well-formed case),
so they are modelled as JValue. -/
structure MetadataRec where
  license : Str
  homepage : JValue
  source : Str
  donate : JValue
  support : Str

/-- One module record as assembled by GithubApi.generate_module. -/
structure ModuleRecord where
  id : Str
  kind : Str
  provider : Str
  changelog : Str
  metadata : MetadataRec

/-- Lines 116-123 of build.py: a truthy (present and non-empty)
updateJson key selects the update-json kind with the key's value as
provider and an empty changelog; anything else selects the git kind
with the SSH clone URL as provider and the changelog probe's result.
Returns (kind, provider, changelog). -/
def resolve_kpc (repo : Repo) (module_prop : List (Str × Str)) :
    Str × Str × Str :=
  match dget module_prop ("updateJson".toList) with
  | some v =>
    if v.isEmpty then ("git".toList, repo.ssh_url, get_changelog repo)
    else ("update-json".toList, v, [])
  | none => ("git".toList, repo.ssh_url, get_changelog repo)

/-- `donate = "" if len(donate_urls) == 0 else donate_urls[0]`. -/
def pick_donate (donate_urls : List JValue) : JValue :=
  match donate_urls with
  | [] => .str []
  | u :: _ => u

/-- `if homepage is None: homepage = ""`. -/
def homepage_default (hp : JValue) : JValue :=
  match hp with
  | .null => .str []
  | v => v

/-- GithubApi.generate_module: None when the descriptor is absent;
otherwise kind/provider/changelog from the descriptor, the issues URL
from has_issues, then the two GraphQL lookups (whose exceptions
propagate), then the `print` statement subscripts the descriptor with
"id" — raising KeyError when the key is absent — before the record
dict is assembled and returned. -/
def generate_module (repo : Repo) : Except PyErr (Option ModuleRecord) :=
  match get_module_prop repo with
  | none => .ok none
  | some module_prop =>
    match get_sponsor_url repo.funding_http with
    | .error e => .error e
    | .ok donate_urls =>
      match get_homepage_url repo.homepage_http with
      | .error e => .error e
      | .ok hp =>
        match dget module_prop ("id".toList) with
        | none => .error .keyError
        | some i =>
          .ok (some
            ⟨i,
             (resolve_kpc repo module_prop).1,
             (resolve_kpc repo module_prop).2.1,
             (resolve_kpc repo module_prop).2.2,
             ⟨get_license repo,
              homepage_default hp,
              repo.clone_url,
              pick_donate donate_urls,
              if repo.has_issues then repo.html_url ++ "/issues".toList
              else []⟩⟩)

/-- GithubApi.generate_modules: the loop over the account's
repositories in enumeration order, appending each non-None resolver
result; an exception inside any iteration aborts the whole run. -/
def generate_modules : List Repo → Except PyErr (List ModuleRecord)
  | [] => .ok []
  | repo :: rest =>
    match generate_module repo with
    | .error e => .error e
    | .ok none => generate_modules rest
    | .ok (some m) =>
      match generate_modules rest with
      | .error e => .error e
      | .ok ms => .ok (m :: ms)

/-
git-commit.py.  The working tree's modules directory is modelled as a
list of filesystem entries; file sizes are Nat bytes.
-/

/-- One directory entry of the materialized modules directory. Only
regular files carry an interesting st_size here: a directory's own
st_size (inode metadata, a few KiB) can never reach the 50 MiB
threshold, so entries named `*.zip` that are directories are modelled
as never satisfying the size test. -/
inductive FsEntry where
  | file (name : Str) (size : Nat)
  | dir (name : Str) (entries : List FsEntry)

def GITHUB_MAX_SIZE : Nat := 50 * 1024 * 1024

/-- fnmatch pattern `*.zip`: the whole name ends in ".zip" (`*` may
match the empty string, and pathlib's matcher does not special-case a
leading dot). -/
def isZipName (n : Str) : Bool := n.reverse.take 4 = ['p', 'i', 'z', '.']

/-- glob pattern `[!.]*`: at least one character, the first of which is
not a dot. -/
def globNonDot (n : Str) : Bool :=
  match n with
  | [] => false
  | c :: _ => c ≠ '.'

/-- Git.skip_it: true when some file directly inside the module
directory matches `*.zip` and has st_size at or above the threshold
(the glob does not descend into subdirectories). -/
def skip_it (entries : List FsEntry) : Bool :=
  entries.any fun e =>
    match e with
    | .file n sz => isZipName n && GITHUB_MAX_SIZE ≤ sz
    | .dir _ _ => false

/-- Git.remove: iterate over the directories matching `[!.]*/` inside
the modules directory and delete those skip_it flags, returning the
names of the deleted directories. The source sorts the glob results
first, which only affects the order of deletion, not the set; the
claims under study are membership statements, so enumeration order is
kept. -/
def remove (entries : List FsEntry) : List Str :=
  entries.filterMap fun e =>
    match e with
    | .file _ _ => none
    | .dir n sub => if globNonDot n && skip_it sub then some n else none

/-
The commit step.  datetime.fromtimestamp(ms / 1000, UTC) is modelled
with exact integer arithmetic on microseconds (Python's float division
can round away sub-microsecond detail only for timestamps far beyond
the tool's range) followed by the proleptic-Gregorian civil-date
conversion; datetime rejects years outside 1..9999 with ValueError.
-/

/-- Decimal rendering of a natural number, zero-padded to `w` digits. -/
def padNum (w : Nat) (n : Nat) : Str :=
  let ds := Nat.toDigits 10 n
  List.replicate (w - ds.length) '0' ++ ds

/-- Civil date (year, month, day) of a day count relative to
1970-01-01, by the standard era decomposition of the proleptic
Gregorian calendar. -/
def civilFromDays (days : Int) : Int × Nat × Nat :=
  let z : Int := days + 719468
  let era : Int := z / 146097 - (if z % 146097 < 0 then 1 else 0)
  let doe : Nat := (z - era * 146097).toNat
  let yoe : Nat := (doe - doe / 1460 + doe / 36524 - doe / 146096) / 365
  let doy : Nat := doe - (365 * yoe + yoe / 4 - yoe / 100)
  let mp : Nat := (5 * doy + 2) / 153
  let d : Nat := doy - (153 * mp + 2) / 5 + 1
  let m : Nat := if mp < 10 then mp + 3 else mp - 9
  let y : Int := (yoe : Int) + era * 400 + (if m ≤ 2 then 1 else 0)
  (y, m, d)

/-- `str(datetime.fromtimestamp(ms / 1000, UTC))` for an integer
millisecond timestamp: "YYYY-MM-DD HH:MM:SS[.ffffff]+00:00", the
microseconds printed only when non-zero; `none` when the year falls
outside datetime's 1..9999 range (a ValueError in Python). -/
def fromtimestampUTC (ms : Int) : Option Str :=
  let usecTotal : Int := ms * 1000
  let sec : Int := usecTotal / 1000000 - (if usecTotal % 1000000 < 0 then 1 else 0)
  let usec : Nat := (usecTotal - sec * 1000000).toNat
  let days : Int := sec / 86400 - (if sec % 86400 < 0 then 1 else 0)
  let sod : Nat := (sec - days * 86400).toNat
  match civilFromDays days with
  | (y, m, d) =>
    if 1 ≤ y ∧ y ≤ 9999 then
      some (padNum 4 y.toNat ++ '-' :: padNum 2 m ++ '-' :: padNum 2 d ++
            ' ' :: padNum 2 (sod / 3600) ++ ':' :: padNum 2 (sod % 3600 / 60) ++
            ':' :: padNum 2 (sod % 60) ++
            (if usec = 0 then [] else '.' :: padNum 6 usec) ++
            "+00:00".toList)
    else none

/-- Git.commit: `json.load` of the manifest (`none` models a file whose
contents fail to parse — json raises JSONDecodeError, a ValueError),
then `modules["timestamp"]` (TypeError when the manifest is not a JSON
object, KeyError when the key is absent), then `timestamp / 1000` and
the datetime rendering (ValueError when out of range). Python's bool is
an int subclass, so a JSON true/false timestamp divides as 1/0 and the
commit proceeds; a null, string, list or object timestamp raises
TypeError on the division (or subscript). Only when everything succeeds
is `git commit -m msg` reached; the result is the commit message. -/
def commit (manifest : Option JValue) : Except PyErr Str :=
  match manifest with
  | none => .error .valueError
  | some (.obj fields) =>
    match jlookup fields ("timestamp".toList) with
    | none => .error .keyError
    | some (.num n) =>
      match fromtimestampUTC n with
      | some t => .ok ("Update by CLI (".toList ++ t ++ [')'])
      | none => .error .valueError
    | some (.bool b) =>
      match fromtimestampUTC (if b then 1 else 0) with
      | some t => .ok ("Update by CLI (".toList ++ t ++ [')'])
      | none => .error .valueError
    | some _ => .error .typeError
  | some _ => .error .typeError

/-
Theorems.
-/

/-- The value of the last well-formed (separator-containing) line with
the given key, the reference semantics for last-write-wins. -/
def lastVal (ls : List Str) (k : Str) : Option Str :=
  (((ls.filterMap parse_prop_line).filter (fun p => p.1 = k)).getLast?).map
    (fun p => p.2)

theorem find_map_update (m : List (Str × Str)) (k v : Str)
    (h : m.any (fun p => p.1 = k) = true) :
    (m.map (fun p => if p.1 = k then (k, v) else p)).find?
      (fun p => p.1 = k) = some (k, v) := by
  induction m with
  | nil => simp at h
  | cons p t ih =>
    by_cases hp : p.1 = k
    · simp [List.find?_cons, hp]
    · simp only [List.any_cons, Bool.or_eq_true, decide_eq_true_eq] at h
      rcases h with h | h
      · exact absurd h hp
      · simp [List.find?_cons, hp, ih h]

theorem find_map_update_ne (m : List (Str × Str)) (k q v : Str)
    (hkq : ¬ k = q) :
    (m.map (fun p => if p.1 = k then (k, v) else p)).find?
      (fun p => p.1 = q) = m.find? (fun p => p.1 = q) := by
  induction m with
  | nil => rfl
  | cons p t ih =>
    by_cases hp : p.1 = k
    · have hpq : ¬ p.1 = q := by rw [hp]; exact hkq
      simp [List.find?_cons, hp, hkq, hpq, ih]
    · have hqk : ¬ q = k := fun hh => hkq hh.symm
      by_cases hq : p.1 = q
      · simp [List.find?_cons, hp, hq, hqk]
      · simp [List.find?_cons, hp, hq, ih]

theorem find_append_single_ne (m : List (Str × Str)) (k q v : Str)
    (hkq : ¬ k = q) :
    (m ++ [(k, v)]).find? (fun p => p.1 = q) =
      m.find? (fun p => p.1 = q) := by
  induction m with
  | nil => simp [List.find?_cons, hkq]
  | cons p t ih =>
    by_cases hq : p.1 = q
    · simp [List.find?_cons, hq]
    · simp [List.find?_cons, hq, ih]

theorem find_append_single_self (m : List (Str × Str)) (k v : Str)
    (h : m.any (fun p => p.1 = k) = false) :
    (m ++ [(k, v)]).find? (fun p => p.1 = k) = some (k, v) := by
  induction m with
  | nil => simp [List.find?_cons]
  | cons p t ih =>
    simp only [List.any_cons, Bool.or_eq_false_iff,
      decide_eq_false_iff_not] at h
    simp [List.find?_cons, h.1, ih h.2]

theorem dget_dinsert_self (m : List (Str × Str)) (k v : Str) :
    dget (dinsert m k v) k = some v := by
  unfold dget dinsert
  by_cases h : m.any (fun p => p.1 = k) = true
  · simp [h, find_map_update m k v h]
  · simp only [Bool.not_eq_true] at h
    simp [h, find_append_single_self m k v h]

theorem dget_dinsert_ne (m : List (Str × Str)) (k q v : Str) (hqk : q ≠ k) :
    dget (dinsert m k v) q = dget m q := by
  have hkq : ¬ k = q := fun hh => hqk hh.symm
  unfold dget dinsert
  by_cases h : m.any (fun p => p.1 = k) = true
  · simp [h, find_map_update_ne m k q v hkq]
  · simp only [Bool.not_eq_true] at h
    simp [h, find_append_single_ne m k q v hkq]

theorem props_concat (ls : List Str) (l : Str) :
    props_of_lines (ls ++ [l]) =
      match parse_prop_line l with
      | none => props_of_lines ls
      | some kv => dinsert (props_of_lines ls) kv.1 kv.2 := by
  unfold props_of_lines
  rw [List.foldl_append, List.foldl_cons, List.foldl_nil]

theorem splitAtEq_exact (k v : Str) (h : '=' ∉ k) :
    splitAtEq (k ++ '=' :: v) = (k, v) := by
  induction k with
  | nil => simp [splitAtEq]
  | cons c k' ih =>
    have hc : c ≠ '=' := fun hh => h (hh ▸ List.mem_cons_self c k')
    have hk' : '=' ∉ k' := fun hh => h (List.mem_cons_of_mem c hh)
    simp [splitAtEq, hc, ih hk']

theorem lastVal_concat (ls : List Str) (l : Str) (k : Str) :
    lastVal (ls ++ [l]) k =
      match parse_prop_line l with
      | none => lastVal ls k
      | some kv => if kv.1 = k then some kv.2 else lastVal ls k := by
  unfold lastVal
  rw [List.filterMap_append]
  cases hp : parse_prop_line l with
  | none => simp [List.filterMap_cons, hp]
  | some kv =>
    by_cases hk : kv.1 = k
    · simp [List.filterMap_cons, hp, List.filter_append, hk,
        List.getLast?_concat]
    · simp [List.filterMap_cons, hp, List.filter_append, hk]

theorem dget_props_lastVal (ls : List Str) (k : Str) :
    dget (props_of_lines ls) k = lastVal ls k := by
  induction ls using List.reverseRecOn with
  | nil => rfl
  | append_singleton ls l ih =>
    rw [props_concat, lastVal_concat]
    cases hp : parse_prop_line l with
    | none => exact ih
    | some kv =>
      obtain ⟨a, b⟩ := kv
      by_cases hak : a = k
      · subst hak
        simp [dget_dinsert_self]
      · simp [hak, dget_dinsert_ne _ _ _ _ (fun hh => hak hh.symm), ih]

/-- Claim C2: in descriptor parsing, every line without '=' is ignored;
a line built as key ++ "=" ++ value (the key free of '=') splits at
that first '=' into exactly that key and value with no trimming, the
value free to contain further '='; and the resulting mapping sends each
key to the value of its last well-formed occurrence (last-write-wins). -/
theorem descriptor_parse_spec :
    (∀ pre line post, '=' ∉ line →
       props_of_lines (pre ++ line :: post) = props_of_lines (pre ++ post))
    ∧ (∀ k v, '=' ∉ k → parse_prop_line (k ++ '=' :: v) = some (k, v))
    ∧ (∀ ls k, dget (props_of_lines ls) k = lastVal ls k) := by
  refine ⟨?_, ?_, dget_props_lastVal⟩
  · intro pre line post h
    have hline : parse_prop_line line = none := by
      simp [parse_prop_line, h]
    unfold props_of_lines
    rw [List.foldl_append, List.foldl_append, List.foldl_cons, hline]
  · intro k v h
    have hmem : '=' ∈ k ++ '=' :: v :=
      List.mem_append_right k (List.mem_cons_self '=' v)
    simp [parse_prop_line, hmem, splitAtEq_exact k v h]

/-- Witness for C2 at concrete inputs: a junk line is ignored, a line
with '=' in the value splits at the first '=', and a duplicated key
takes the later line's value. -/
theorem descriptor_parse_spec_witness :
    ('=' ∉ "junk".toList) ∧
    props_of_lines (["id=a".toList] ++ "junk".toList :: ["id=b".toList]) =
      props_of_lines (["id=a".toList] ++ ["id=b".toList]) ∧
    parse_prop_line ("author".toList ++ '=' :: "x=y".toList) =
      some ("author".toList, "x=y".toList) ∧
    dget (props_of_lines ["id=a".toList, "id=b".toList]) ("id".toList) =
      lastVal ["id=a".toList, "id=b".toList] ("id".toList) :=
  ⟨by decide,
   descriptor_parse_spec.1 _ _ _ (by decide),
   descriptor_parse_spec.2.1 _ _ (by decide),
   descriptor_parse_spec.2.2 _ _⟩

theorem resolve_kpc_none (repo : Repo) (mp : List (Str × Str))
    (hu : dget mp ("updateJson".toList) = none) :
    resolve_kpc repo mp = ("git".toList, repo.ssh_url, get_changelog repo) := by
  unfold resolve_kpc
  rw [hu]

theorem resolve_kpc_empty (repo : Repo) (mp : List (Str × Str))
    (hu : dget mp ("updateJson".toList) = some []) :
    resolve_kpc repo mp = ("git".toList, repo.ssh_url, get_changelog repo) := by
  unfold resolve_kpc
  rw [hu]
  rfl

theorem resolve_kpc_truthy (repo : Repo) (mp : List (Str × Str)) (v : Str)
    (hu : dget mp ("updateJson".toList) = some v) (hv : v ≠ []) :
    resolve_kpc repo mp = ("update-json".toList, v, []) := by
  unfold resolve_kpc
  rw [hu]
  simp [List.isEmpty_iff, hv]

/-- Claim C1: for a repository whose produced module record exists, the
record's kind is "update-json" exactly when the descriptor has a
non-empty (truthy) updateJson value, in which case the provider is that
value and the changelog is empty; otherwise the kind is "git", the
provider is the repository's SSH clone URL, and the changelog is
non-empty only when the kind is "git" and a changelog.md file exists,
in which case it equals that file's download URL. -/
theorem module_kind_spec (repo : Repo) (mp : List (Str × Str))
    (m : ModuleRecord)
    (hmp : get_module_prop repo = some mp)
    (hm : generate_module repo = Except.ok (some m)) :
    (m.kind = "update-json".toList ↔
      ∃ v, dget mp ("updateJson".toList) = some v ∧ v ≠ [])
    ∧ (∀ v, dget mp ("updateJson".toList) = some v → v ≠ [] →
        m.provider = v ∧ m.changelog = [])
    ∧ (m.kind ≠ "update-json".toList →
        m.kind = "git".toList ∧ m.provider = repo.ssh_url ∧
        m.changelog = get_changelog repo)
    ∧ (m.changelog ≠ [] → m.kind = "git".toList ∧
        repo.changelog_md = some m.changelog)
    ∧ (m.kind = "git".toList → ∀ u, repo.changelog_md = some u →
        m.changelog = u) := by
  simp only [generate_module, hmp] at hm
  cases hs : get_sponsor_url repo.funding_http with
  | error e => rw [hs] at hm; simp at hm
  | ok donate_urls =>
    rw [hs] at hm
    cases hh : get_homepage_url repo.homepage_http with
    | error e => rw [hh] at hm; simp at hm
    | ok hp =>
      rw [hh] at hm
      cases hid : dget mp ("id".toList) with
      | none => rw [hid] at hm; simp at hm
      | some i =>
        rw [hid] at hm
        simp only [Except.ok.injEq, Option.some.injEq] at hm
        subst hm
        cases hu : dget mp ("updateJson".toList) with
        | none =>
          rw [resolve_kpc_none repo mp hu]
          refine ⟨?_, ?_, ?_, ?_, ?_⟩
          · constructor
            · intro hkind
              exact absurd
                (show ("git".toList : Str) = "update-json".toList from hkind)
                (by decide)
            · rintro ⟨v, hv, _⟩; exact Option.noConfusion hv
          · intro v hv; exact Option.noConfusion hv
          · intro _
            exact ⟨rfl, rfl, rfl⟩
          · intro hne
            refine ⟨rfl, ?_⟩
            cases hc : repo.changelog_md with
            | none => simp [get_changelog, hc] at hne
            | some u => simp [get_changelog, hc] at hne ⊢
          · intro _ u hc
            simp [get_changelog, hc]
        | some v =>
          by_cases hvnil : v = []
          · subst hvnil
            rw [resolve_kpc_empty repo mp hu]
            refine ⟨?_, ?_, ?_, ?_, ?_⟩
            · constructor
              · intro hkind
                exact absurd
                  (show ("git".toList : Str) = "update-json".toList from hkind)
                  (by decide)
              · rintro ⟨w, hw, hwne⟩
                cases hw
                exact absurd rfl hwne
            · intro w hw hwne
              cases hw
              exact absurd rfl hwne
            · intro _
              exact ⟨rfl, rfl, rfl⟩
            · intro hne
              refine ⟨rfl, ?_⟩
              cases hc : repo.changelog_md with
              | none => simp [get_changelog, hc] at hne
              | some u => simp [get_changelog, hc] at hne ⊢
            · intro _ u hc
              simp [get_changelog, hc]
          · rw [resolve_kpc_truthy repo mp v hu hvnil]
            refine ⟨?_, ?_, ?_, ?_, ?_⟩
            · exact ⟨fun _ => ⟨v, rfl, hvnil⟩, fun _ => rfl⟩
            · intro w hw _
              cases hw
              exact ⟨rfl, rfl⟩
            · intro hkind
              exact absurd rfl hkind
            · intro hne
              exact absurd rfl hne
            · intro hkind
              exact absurd
                (show ("update-json".toList : Str) = "git".toList from hkind)
                (by decide)

/-- An HTTP outcome whose body holds a null repository: both GraphQL
helpers treat it as "no data". -/
def benignHttp : HttpOutcome :=
  .resp true (.obj [("data".toList, .obj [("repository".toList, .null)])])

/-- A concrete repository whose descriptor declares an updateJson URL. -/
def repoUJ : Repo :=
  ⟨"git@github.com:a/b.git".toList,
   "https://github.com/a/b.git".toList,
   "https://github.com/a/b".toList,
   false,
   some "id=foo\nupdateJson=https://x/u.json".toList,
   none, none, benignHttp, benignHttp, benignHttp⟩

def mpUJ : List (Str × Str) :=
  [("id".toList, "foo".toList),
   ("updateJson".toList, "https://x/u.json".toList)]

def recUJ : ModuleRecord :=
  ⟨"foo".toList, "update-json".toList, "https://x/u.json".toList, [],
   ⟨[], .str [], "https://github.com/a/b.git".toList, .str [], []⟩⟩

/-- Witness for C1: the concrete repository resolves, and its record's
kind is "update-json" exactly because the descriptor's updateJson value
is non-empty. -/
theorem module_kind_spec_witness :
    get_module_prop repoUJ = some mpUJ ∧
    generate_module repoUJ = Except.ok (some recUJ) ∧
    (recUJ.kind = "update-json".toList ↔
      ∃ v, dget mpUJ ("updateJson".toList) = some v ∧ v ≠ []) :=
  ⟨rfl, rfl, (module_kind_spec repoUJ mpUJ recUJ rfl rfl).1⟩

theorem generate_module_ok_none_iff (repo : Repo) :
    generate_module repo = Except.ok none ↔ get_module_prop repo = none := by
  cases hmp : get_module_prop repo with
  | none => simp [generate_module, hmp]
  | some mp =>
    simp only [generate_module, hmp]
    cases hs : get_sponsor_url repo.funding_http with
    | error e => simp
    | ok donate_urls =>
      cases hh : get_homepage_url repo.homepage_http with
      | error e => simp
      | ok hp =>
        cases hid : dget mp ("id".toList) with
        | none => simp
        | some i => simp

/-- Claim C3: when the catalog build completes, the modules list is
exactly the repositories' non-absent resolver results in enumeration
order, a repository without a descriptor contributes nothing, and the
record count falls short of the repository count by exactly the number
of repositories without a descriptor. -/
theorem catalog_build_spec (repos : List Repo) (mods : List ModuleRecord)
    (h : generate_modules repos = Except.ok mods) :
    mods = repos.filterMap (fun r =>
      match generate_module r with
      | Except.ok (some m) => some m
      | _ => none)
    ∧ mods.length +
        (repos.filter (fun r => (get_module_prop r).isNone)).length =
      repos.length
    ∧ mods.length ≤ repos.length := by
  induction repos generalizing mods with
  | nil =>
    simp only [generate_modules, Except.ok.injEq] at h
    subst h
    simp
  | cons r rest ih =>
    simp only [generate_modules] at h
    cases hg : generate_module r with
    | error e => rw [hg] at h; simp at h
    | ok o =>
      rw [hg] at h
      cases o with
      | none =>
        obtain ⟨h1, h2, h3⟩ := ih mods h
        have hmp : get_module_prop r = none :=
          (generate_module_ok_none_iff r).mp hg
        refine ⟨?_, ?_, ?_⟩
        · rw [List.filterMap_cons, hg]
          exact h1
        · simp [List.filter_cons, hmp]
          omega
        · simp only [List.length_cons]; omega
      | some m =>
        cases hrest : generate_modules rest with
        | error e => rw [hrest] at h; simp at h
        | ok ms =>
          rw [hrest] at h
          simp only [Except.ok.injEq] at h
          subst h
          obtain ⟨h1, h2, h3⟩ := ih ms hrest
          have hmp : ¬ (get_module_prop r).isNone = true := by
            intro hno
            have : get_module_prop r = none := by
              cases hx : get_module_prop r with
              | none => rfl
              | some _ => rw [hx] at hno; simp at hno
            have := (generate_module_ok_none_iff r).mpr this
            rw [hg] at this
            simp at this
          refine ⟨?_, ?_, ?_⟩
          · rw [List.filterMap_cons, hg]
            rw [h1]
          · simp only [List.filter_cons, List.length_cons]
            rw [if_neg hmp]
            omega
          · simp only [List.length_cons]; omega

/-- A concrete repository without a module.prop descriptor. -/
def repoNoDesc : Repo :=
  ⟨"git@github.com:a/c.git".toList,
   "https://github.com/a/c.git".toList,
   "https://github.com/a/c".toList,
   true,
   none, none, none, benignHttp, benignHttp, benignHttp⟩

/-- Witness for C3: an account with one descriptor-less repository and
one module repository yields a one-record catalog whose count is one
short of the repository count. -/
theorem catalog_build_spec_witness :
    generate_modules [repoNoDesc, repoUJ] = Except.ok [recUJ] ∧
    ([recUJ] : List ModuleRecord) =
      [repoNoDesc, repoUJ].filterMap (fun r =>
        match generate_module r with
        | Except.ok (some m) => some m
        | _ => none) ∧
    ([recUJ] : List ModuleRecord).length +
        ([repoNoDesc, repoUJ].filter
          (fun r => (get_module_prop r).isNone)).length = 2 :=
  ⟨rfl, (catalog_build_spec [repoNoDesc, repoUJ] [recUJ] rfl).1,
   (catalog_build_spec [repoNoDesc, repoUJ] [recUJ] rfl).2.1⟩

/-- The per-entry rule claimed for funding links: a GITHUB-platform
entry becomes the canonical sponsors URL built from the last
slash-separated segment of the stored URL, any other entry's URL passes
through unchanged. -/
def rewriteFunding (p u : Str) : Str :=
  if p = "GITHUB".toList then
    "https://github.com/sponsors/".toList ++ lastSegment u
  else u

theorem funding_item_wf (g : List (Str × JValue)) (p u : Str)
    (hp : jlookup g ("platform".toList) = some (.str p))
    (hu : jlookup g ("url".toList) = some (.str u)) :
    funding_item (.obj g) = .ok (.str (rewriteFunding p u)) := by
  by_cases hgit : p = "GITHUB".toList
  · subst hgit
    simp only [funding_item, hp, hu, isGithubPlatform, rewriteFunding]
    simp
  · have hb : decide (p = ("GITHUB".toList : Str)) = false :=
      decide_eq_false hgit
    simp only [funding_item, hp, hu, isGithubPlatform, rewriteFunding, hb,
      Bool.false_eq_true, if_false, if_neg hgit]

theorem mapFunding_wf (items : List JValue)
    (hwf : ∀ it ∈ items, ∃ g p u, it = JValue.obj g ∧
        jlookup g ("platform".toList) = some (.str p) ∧
        jlookup g ("url".toList) = some (.str u)) :
    ∃ urls, mapFunding items = .ok urls ∧ urls.length = items.length ∧
      ∀ i g p u, items.get? i = some (JValue.obj g) →
        jlookup g ("platform".toList) = some (.str p) →
        jlookup g ("url".toList) = some (.str u) →
        urls.get? i = some (.str (rewriteFunding p u)) := by
  induction items with
  | nil =>
    refine ⟨[], rfl, rfl, ?_⟩
    intro i g p u hi
    simp at hi
  | cons it rest ih =>
    obtain ⟨g0, p0, u0, hq, hp0, hu0⟩ := hwf it (List.mem_cons_self it rest)
    subst hq
    obtain ⟨urls, hmap, hlen, hpt⟩ :=
      ih (fun x hx => hwf x (List.mem_cons_of_mem _ hx))
    refine ⟨.str (rewriteFunding p0 u0) :: urls, ?_, by simp [hlen], ?_⟩
    · unfold mapFunding
      rw [funding_item_wf g0 p0 u0 hp0 hu0, hmap]
    · intro i g p u hi hp hu
      cases i with
      | zero =>
        simp only [List.get?_cons_zero, Option.some.injEq] at hi
        cases hi
        rw [hp0] at hp
        rw [hu0] at hu
        simp only [Option.some.injEq, JValue.str.injEq] at hp hu
        subst hp
        subst hu
        simp
      | succ j =>
        simp only [List.get?_cons_succ] at hi ⊢
        exact hpt j g p u hi hp hu

/-- Claim C4: for a well-formed funding-links response, the returned
sequence has one entry per funding entry in order, each rewritten by
the GITHUB-sponsors rule or passed through unchanged, and the donate
field of any record resolved against this response is the first entry
of the sequence if one exists, else the empty string. -/
theorem funding_links_spec (h : HttpOutcome) (flds : List (Str × JValue))
    (items : List JValue)
    (hq : query_repository h = Except.ok (some (JValue.obj flds)))
    (hfl : jlookup flds ("fundingLinks".toList) = some (JValue.arr items))
    (hwf : ∀ it ∈ items, ∃ g p u, it = JValue.obj g ∧
        jlookup g ("platform".toList) = some (.str p) ∧
        jlookup g ("url".toList) = some (.str u)) :
    ∃ urls, get_sponsor_url h = Except.ok urls ∧
      urls.length = items.length ∧
      (∀ i g p u, items.get? i = some (JValue.obj g) →
        jlookup g ("platform".toList) = some (.str p) →
        jlookup g ("url".toList) = some (.str u) →
        urls.get? i = some (.str (rewriteFunding p u))) ∧
      (∀ (repo : Repo) (m : ModuleRecord), repo.funding_http = h →
        generate_module repo = Except.ok (some m) →
        m.metadata.donate = pick_donate urls) ∧
      pick_donate urls = urls.headD (JValue.str []) := by
  obtain ⟨urls, hmap, hlen, hpt⟩ := mapFunding_wf items hwf
  have hsp : get_sponsor_url h = Except.ok urls := by
    simp only [get_sponsor_url, hq, hfl, hmap]
  refine ⟨urls, hsp, hlen, hpt, ?_, ?_⟩
  · intro repo m hrepo hm
    cases hmp : get_module_prop repo with
    | none =>
      simp only [generate_module, hmp] at hm
      simp at hm
    | some mp =>
      simp only [generate_module, hmp] at hm
      rw [hrepo, hsp] at hm
      cases hh : get_homepage_url repo.homepage_http with
      | error e => rw [hh] at hm; simp at hm
      | ok hp =>
        rw [hh] at hm
        cases hid : dget mp ("id".toList) with
        | none => rw [hid] at hm; simp at hm
        | some i =>
          rw [hid] at hm
          simp only [Except.ok.injEq, Option.some.injEq] at hm
          subst hm
          rfl
  · cases urls <;> rfl

def fundingItems : List JValue :=
  [.obj [("platform".toList, .str ("GITHUB".toList)),
         ("url".toList, .str ("https://github.com/x/sponsors-org".toList))],
   .obj [("platform".toList, .str ("OTHER".toList)),
         ("url".toList, .str ("https://x.example".toList))]]

def fundingH : HttpOutcome :=
  .resp true (.obj [("data".toList, .obj [("repository".toList,
    .obj [("fundingLinks".toList, .arr fundingItems)])])])

/-- Witness for C4 at the spec's own example: a GITHUB entry followed
by an OTHER entry. -/
theorem funding_links_spec_witness :
    query_repository fundingH =
      Except.ok (some (.obj [("fundingLinks".toList, .arr fundingItems)])) ∧
    ∃ urls, get_sponsor_url fundingH = Except.ok urls ∧
      urls.length = fundingItems.length ∧
      pick_donate urls = urls.headD (JValue.str []) := by
  have hwf : ∀ it ∈ fundingItems, ∃ g p u, it = JValue.obj g ∧
      jlookup g ("platform".toList) = some (.str p) ∧
      jlookup g ("url".toList) = some (.str u) := by
    intro it hit
    simp only [fundingItems, List.mem_cons, List.not_mem_nil, or_false] at hit
    rcases hit with rfl | rfl
    · exact ⟨_, _, _, rfl, rfl, rfl⟩
    · exact ⟨_, _, _, rfl, rfl, rfl⟩
  obtain ⟨urls, h1, h2, h3, h4, h5⟩ :=
    funding_links_spec fundingH
      [("fundingLinks".toList, .arr fundingItems)] fundingItems rfl rfl hwf
  exact ⟨rfl, urls, h1, h2, h5⟩

/-- Counterexample to C5 as stated: a raising transport propagates out
of the funding-links lookup instead of yielding an empty sequence, and
a present repository object that lacks a fundingLinks entry raises a
KeyError. -/
theorem funding_error_counterexample :
    get_sponsor_url HttpOutcome.raised =
      Except.error PyErr.connectionError ∧
    get_sponsor_url (.resp true (.obj [("data".toList,
      .obj [("repository".toList, .obj [])])])) =
      Except.error PyErr.keyError :=
  ⟨rfl, rfl⟩

/-- Claim C5 as amended: a non-OK HTTP response, or any response from
which no repository object can be extracted (missing or non-object
data, missing or null repository), makes the funding-links operation
return the empty sequence without raising; a transport-level exception
and a malformed present repository still raise. -/
theorem funding_error_empty (h : HttpOutcome) :
    (∀ body, h = .resp false body → get_sponsor_url h = Except.ok [])
    ∧ (query_repository h = Except.ok none →
        get_sponsor_url h = Except.ok []) := by
  constructor
  · rintro body rfl
    rfl
  · intro hq
    simp only [get_sponsor_url, hq]

/-- Witness for the amended C5 at concrete inputs: a non-OK response
and an OK response whose body is not an object both yield []. -/
theorem funding_error_empty_witness :
    get_sponsor_url (HttpOutcome.resp false JValue.null) = Except.ok [] ∧
    query_repository (HttpOutcome.resp true JValue.null) =
      Except.ok none ∧
    get_sponsor_url (HttpOutcome.resp true JValue.null) = Except.ok [] :=
  ⟨(funding_error_empty (.resp false .null)).1 .null rfl, rfl,
   (funding_error_empty (.resp true .null)).2 rfl⟩

/-- A concrete repository whose descriptor exists but has no id key. -/
def repoNoId : Repo :=
  ⟨"git@github.com:a/d.git".toList,
   "https://github.com/a/d.git".toList,
   "https://github.com/a/d".toList,
   false,
   some "name=NoId\nversion=1".toList,
   none, none, benignHttp, benignHttp, benignHttp⟩

/-- Counterexample to C6 as stated: with a descriptor present but no
id key, the resolver raises a KeyError instead of constructing and
returning a module record. -/
theorem missing_id_counterexample :
    generate_module repoNoId = Except.error PyErr.keyError := rfl

/-- Claim C6 as amended: when the descriptor exists but lacks the id
key, the resolver never returns a record; once the two GraphQL lookups
have succeeded it raises a KeyError at the record-assembly print. -/
theorem missing_id_no_record (repo : Repo) (mp : List (Str × Str))
    (hmp : get_module_prop repo = some mp)
    (hid : dget mp ("id".toList) = none) :
    (∀ res, generate_module repo ≠ Except.ok res)
    ∧ (∀ urls hp, get_sponsor_url repo.funding_http = Except.ok urls →
        get_homepage_url repo.homepage_http = Except.ok hp →
        generate_module repo = Except.error PyErr.keyError) := by
  constructor
  · intro res hm
    simp only [generate_module, hmp] at hm
    cases hs : get_sponsor_url repo.funding_http with
    | error e => rw [hs] at hm; simp at hm
    | ok urls =>
      rw [hs] at hm
      cases hh : get_homepage_url repo.homepage_http with
      | error e => rw [hh] at hm; simp at hm
      | ok hp =>
        rw [hh] at hm
        rw [hid] at hm
        simp at hm
  · intro urls hp hs hh
    simp only [generate_module, hmp, hs, hh, hid]

/-- Witness for the amended C6 at the concrete id-less repository. -/
theorem missing_id_no_record_witness :
    dget [("name".toList, "NoId".toList), ("version".toList, "1".toList)]
      ("id".toList) = none ∧
    generate_module repoNoId ≠ Except.ok none :=
  ⟨rfl,
   (missing_id_no_record repoNoId
      [("name".toList, "NoId".toList), ("version".toList, "1".toList)]
      rfl rfl).1 none⟩

/-- An OK GraphQL outcome whose repository object has the given fields. -/
def repoObjHttp (flds : List (Str × JValue)) : HttpOutcome :=
  .resp true (.obj [("data".toList, .obj [("repository".toList,
    .obj flds)])])

/-- Counterexample to C7 as stated: a repository object missing the
pushedAt key raises a KeyError, and an unparseable pushedAt string
raises a ValueError (dateutil's ParserError), instead of returning "no
value". -/
theorem pushed_at_counterexample :
    get_pushed_at (repoObjHttp []) = Except.error PyErr.keyError ∧
    get_pushed_at (repoObjHttp [("pushedAt".toList, .str [])]) =
      Except.error PyErr.valueError :=
  ⟨rfl, rfl⟩

/-- Claim C7 as amended: the push-timestamp lookup returns the parsed
timestamp on a well-formed string, and "no value" when the repository
result is absent or the pushedAt value is null (or any non-string,
since only TypeError is caught); it raises KeyError when a repository
object lacks the key and ValueError when the string is unparseable. -/
theorem pushed_at_spec (h : HttpOutcome) :
    (query_repository h = Except.ok none → get_pushed_at h = Except.ok none)
    ∧ (∀ flds, query_repository h = Except.ok (some (.obj flds)) →
        (jlookup flds ("pushedAt".toList) = none →
          get_pushed_at h = Except.error PyErr.keyError)
        ∧ (∀ s t, jlookup flds ("pushedAt".toList) = some (.str s) →
            parseISO s = some t → get_pushed_at h = Except.ok (some t))
        ∧ (∀ s, jlookup flds ("pushedAt".toList) = some (.str s) →
            parseISO s = none →
            get_pushed_at h = Except.error PyErr.valueError)
        ∧ (jlookup flds ("pushedAt".toList) = some .null →
            get_pushed_at h = Except.ok none)) := by
  constructor
  · intro hq
    simp only [get_pushed_at, hq]
  · intro flds hq
    refine ⟨?_, ?_, ?_, ?_⟩
    · intro hnone
      simp only [get_pushed_at, hq, hnone]
    · intro s t hs hp
      simp only [get_pushed_at, hq, hs, hp]
    · intro s hs hp
      simp only [get_pushed_at, hq, hs, hp]
    · intro hnull
      simp only [get_pushed_at, hq, hnull]

/-- Witness for the amended C7 at GitHub's pushedAt format. -/
theorem pushed_at_spec_witness :
    parseISO ("2013-02-20T23:35:32Z".toList) =
      some ⟨2013, 2, 20, 23, 35, 32⟩ ∧
    get_pushed_at
        (repoObjHttp [("pushedAt".toList,
          .str ("2013-02-20T23:35:32Z".toList))]) =
      Except.ok (some ⟨2013, 2, 20, 23, 35, 32⟩) :=
  ⟨rfl,
   ((pushed_at_spec (repoObjHttp [("pushedAt".toList,
       .str ("2013-02-20T23:35:32Z".toList))])).2
     [("pushedAt".toList, .str ("2013-02-20T23:35:32Z".toList))]
     rfl).2.1 _ _ rfl rfl⟩

/-- Counterexample to C8 as stated: a manifest that parses and has a
timestamp key still aborts when the value is not a number (TypeError
on division) or when the resulting datetime is out of range
(ValueError), instead of committing. -/
theorem commit_counterexample :
    commit (some (.obj [("timestamp".toList, .str ("a".toList))])) =
      Except.error PyErr.typeError ∧
    commit (some (.obj [("timestamp".toList,
      .num 1000000000000000000)])) = Except.error PyErr.valueError :=
  ⟨rfl, rfl⟩

/-- Claim C8 as amended: an unparseable manifest aborts with the json
ValueError and a parsed object without a timestamp key aborts with a
KeyError, in both cases before any commit is issued; a numeric
timestamp within datetime's range commits with the message "Update by
CLI (t)" for t the value divided by 1000 rendered as a UTC datetime; a
boolean timestamp is numeric in Python (True/False divide as 1/0) and
commits likewise; a timestamp of any other non-numeric type, or an
out-of-range number, aborts. -/
theorem commit_spec (manifest : Option JValue) :
    (manifest = none → commit manifest = Except.error PyErr.valueError)
    ∧ (∀ flds, manifest = some (.obj flds) →
        (jlookup flds ("timestamp".toList) = none →
          commit manifest = Except.error PyErr.keyError)
        ∧ (∀ n s, jlookup flds ("timestamp".toList) = some (.num n) →
            fromtimestampUTC n = some s →
            commit manifest =
              Except.ok ("Update by CLI (".toList ++ s ++ [')']))
        ∧ (∀ n, jlookup flds ("timestamp".toList) = some (.num n) →
            fromtimestampUTC n = none →
            commit manifest = Except.error PyErr.valueError)
        ∧ (∀ b s, jlookup flds ("timestamp".toList) = some (.bool b) →
            fromtimestampUTC (if b then 1 else 0) = some s →
            commit manifest =
              Except.ok ("Update by CLI (".toList ++ s ++ [')']))
        ∧ (∀ v, jlookup flds ("timestamp".toList) = some v →
            (∀ n : Int, v ≠ .num n) → (∀ b : Bool, v ≠ .bool b) →
            commit manifest = Except.error PyErr.typeError)) := by
  constructor
  · rintro rfl
    rfl
  · rintro flds rfl
    refine ⟨?_, ?_, ?_, ?_, ?_⟩
    · intro hnone
      simp only [commit, hnone]
    · intro n s ht hf
      simp only [commit, ht, hf]
    · intro n ht hf
      simp only [commit, ht, hf]
    · intro b s ht hf
      simp only [commit, ht, hf]
    · intro v ht hnn hnb
      cases v with
      | num n => exact absurd rfl (hnn n)
      | bool b => exact absurd rfl (hnb b)
      | null => simp only [commit, ht]
      | str s => simp only [commit, ht]
      | arr l => simp only [commit, ht]
      | obj f => simp only [commit, ht]

/-- Witness for the amended C8: a realistic millisecond timestamp
commits with the rendered UTC datetime, and a boolean timestamp is
numeric and commits too (True behaves as 1 millisecond). -/
theorem commit_spec_witness :
    jlookup [("timestamp".toList, JValue.num 1700000000000)]
      ("timestamp".toList) = some (JValue.num 1700000000000) ∧
    commit (some (.obj [("timestamp".toList, .num 1700000000000)])) =
      Except.ok ("Update by CLI (2023-11-14 22:13:20+00:00)".toList) ∧
    commit (some (.obj [("timestamp".toList, .bool true)])) =
      Except.ok
        ("Update by CLI (1970-01-01 00:00:00.001000+00:00)".toList) := by
  refine ⟨rfl, ?_, ?_⟩
  · have hc := ((commit_spec (some (.obj [("timestamp".toList,
        .num 1700000000000)]))).2 _ rfl).2.1 1700000000000
        ("2023-11-14 22:13:20+00:00".toList) rfl rfl
    exact hc.trans (by rfl)
  · have hb := ((commit_spec (some (.obj [("timestamp".toList,
        .bool true)]))).2 _ rfl).2.2.2.1 true
        ("1970-01-01 00:00:00.001000+00:00".toList) rfl rfl
    exact hb.trans (by rfl)

theorem skip_it_iff (entries : List FsEntry) :
    skip_it entries = true ↔
      ∃ n sz, FsEntry.file n sz ∈ entries ∧ isZipName n = true ∧
        GITHUB_MAX_SIZE ≤ sz := by
  unfold skip_it
  rw [List.any_eq_true]
  constructor
  · rintro ⟨e, he, hpred⟩
    cases e with
    | file n sz =>
      simp only [Bool.and_eq_true, decide_eq_true_eq] at hpred
      exact ⟨n, sz, he, hpred.1, hpred.2⟩
    | dir n sub => simp at hpred
  · rintro ⟨n, sz, hmem, hzip, hsz⟩
    exact ⟨.file n sz, hmem, by simp [hzip, hsz]⟩

theorem mem_remove_iff (entries : List FsEntry) (n : Str) :
    n ∈ remove entries ↔
      ∃ sub, FsEntry.dir n sub ∈ entries ∧ globNonDot n = true ∧
        skip_it sub = true := by
  unfold remove
  rw [List.mem_filterMap]
  constructor
  · rintro ⟨e, he, hf⟩
    cases e with
    | file _ _ => simp at hf
    | dir n2 sub =>
      by_cases hcond : (globNonDot n2 && skip_it sub) = true
      · simp only [hcond, if_true, Option.some.injEq] at hf
        subst hf
        simp only [Bool.and_eq_true] at hcond
        exact ⟨sub, he, hcond.1, hcond.2⟩
      · simp [hcond] at hf
  · rintro ⟨sub, hmem, hdot, hskip⟩
    exact ⟨.dir n sub, hmem, by simp [hdot, hskip]⟩

/-- Claim C9: among the directories the pruning step considers (names
not starting with a dot), exactly those containing a direct zip file of
at least 50 MiB (50 * 1024 * 1024 bytes) are removed: every such
directory is removed, and every removed name came from such a
directory. -/
theorem prune_threshold_spec (entries : List FsEntry) :
    (∀ n sub, FsEntry.dir n sub ∈ entries → globNonDot n = true →
      (∃ m sz, FsEntry.file m sz ∈ sub ∧ isZipName m = true ∧
        GITHUB_MAX_SIZE ≤ sz) →
      n ∈ remove entries)
    ∧ (∀ n, n ∈ remove entries →
      ∃ sub, FsEntry.dir n sub ∈ entries ∧ globNonDot n = true ∧
        ∃ m sz, FsEntry.file m sz ∈ sub ∧ isZipName m = true ∧
          GITHUB_MAX_SIZE ≤ sz) := by
  constructor
  · intro n sub hmem hdot hbig
    exact (mem_remove_iff entries n).mpr
      ⟨sub, hmem, hdot, (skip_it_iff sub).mpr hbig⟩
  · intro n hn
    obtain ⟨sub, hmem, hdot, hskip⟩ := (mem_remove_iff entries n).mp hn
    exact ⟨sub, hmem, hdot, (skip_it_iff sub).mp hskip⟩

/-- Witness for C9: a module directory holding one zip exactly at the
threshold is removed. -/
theorem prune_threshold_spec_witness :
    globNonDot ("mod".toList) = true ∧
    ("mod".toList : Str) ∈ remove
      [FsEntry.dir ("mod".toList)
        [FsEntry.file ("big.zip".toList) GITHUB_MAX_SIZE]] :=
  ⟨rfl,
   (prune_threshold_spec _).1 ("mod".toList) _
     (List.mem_singleton.mpr rfl) rfl
     ⟨"big.zip".toList, GITHUB_MAX_SIZE, List.mem_singleton.mpr rfl,
      rfl, Nat.le_refl _⟩⟩

/-- Claim C10: pruning only sees non-dot-named directories and only
direct children matching *.zip: a dot-named directory is never removed
whatever it contains, and a directory all of whose direct zip files are
under the threshold (however large its other files, and whatever zips
its subdirectories hold) is never removed. -/
theorem prune_scope_spec (entries : List FsEntry) :
    (∀ n, globNonDot n = false → n ∉ remove entries)
    ∧ (∀ n, (∀ sub, FsEntry.dir n sub ∈ entries →
        ∀ m sz, FsEntry.file m sz ∈ sub → isZipName m = true →
          sz < GITHUB_MAX_SIZE) →
      n ∉ remove entries) := by
  constructor
  · intro n hdot hn
    obtain ⟨sub, hmem, hdot2, hskip⟩ := (mem_remove_iff entries n).mp hn
    rw [hdot] at hdot2
    exact Bool.noConfusion hdot2
  · intro n hsmall hn
    obtain ⟨sub, hmem, hdot, hskip⟩ := (mem_remove_iff entries n).mp hn
    obtain ⟨m, sz, hm, hzip, hsz⟩ := (skip_it_iff sub).mp hskip
    exact absurd hsz (Nat.not_le_of_lt (hsmall sub hmem m sz hm hzip))

/-- The concrete modules directory for the C10 witness: a dot-named
directory with a huge zip, and a clean directory with a huge non-zip
file plus a huge zip hidden one level down. -/
def entriesScope : List FsEntry :=
  [FsEntry.dir (".hidden".toList)
     [FsEntry.file ("huge.zip".toList) (2 * GITHUB_MAX_SIZE)],
   FsEntry.dir ("clean".toList)
     [FsEntry.file ("huge.tar".toList) (2 * GITHUB_MAX_SIZE),
      FsEntry.dir ("sub".toList)
        [FsEntry.file ("inner.zip".toList) (2 * GITHUB_MAX_SIZE)]]]

/-- Witness for C10: neither the dot-named directory nor the directory
without a direct oversize zip is removed. -/
theorem prune_scope_spec_witness :
    ((".hidden".toList : Str) ∉ remove entriesScope)
    ∧ (("clean".toList : Str) ∉ remove entriesScope) := by
  refine ⟨(prune_scope_spec entriesScope).1 _ rfl,
    (prune_scope_spec entriesScope).2 _ ?_⟩
  intro sub hsub m sz hm hz
  simp only [entriesScope, List.mem_cons, List.not_mem_nil, or_false]
    at hsub
  rcases hsub with heq | heq
  · injection heq with h1 h2
    exact absurd h1 (by decide)
  · injection heq with h1 h2
    subst h2
    simp only [List.mem_cons, List.not_mem_nil, or_false] at hm
    rcases hm with hfe | hfe
    · injection hfe with hm1 hm2
      subst hm1
      exact absurd hz (by decide)
    · exact FsEntry.noConfusion hfe

end MagiskRepo
